import Mathlib

/-!
# Verification of the Hall of Eternal Champions ingestion engine

A shallow embedding, in Lean 4, of the interactive structured-extraction
engine implemented in
`src/ingestion/connector/hallofeternalchampions/client.py` and
`src/ingestion/connector/hallofeternalchampions/datasource.py`.

DOM access is modelled at input granularity: where the Python code reads a
rendered page through BeautifulSoup/Playwright queries (anchor `href`s,
heading texts, table header/body cells, grid cells, button labels, modal
texts), the embedding receives those query results as explicit data and
reproduces everything the code computes *from* them.  Python `dict`s are
modelled as association lists with overwrite-insert, Python strings as
`String`, sets as order-preserving deduplication, and machine-level
hashing (`hashlib.sha256`) as an executable SHA-256 over `Nat` bytes.
-/

/-! ## String primitives (Python `in`, `startswith`, `strip`, `lower`, `split`) -/

/-- Is the first list a prefix of the second? (Boolean, executable.) -/
def isPrefixChars : List Char → List Char → Bool
  | [], _ => true
  | _ :: _, [] => false
  | a :: s, b :: t => a == b && isPrefixChars s t

/-- Does `l` contain `sub` as a contiguous run?  Models Python `sub in s`. -/
def hasInfixChars (sub : List Char) : List Char → Bool
  | [] => isPrefixChars sub []
  | l@(_ :: t) => isPrefixChars sub l || hasInfixChars sub t

/-- Python `sub in s` on strings. -/
def strContains (s sub : String) : Bool := hasInfixChars sub.data s.data

/-- Python `s.startswith(pre)`. -/
def strStartsWith (s pre : String) : Bool := isPrefixChars pre.data s.data

/-- Strip leading and trailing whitespace from a character list. -/
def trimChars (l : List Char) : List Char :=
  ((l.dropWhile Char.isWhitespace).reverse.dropWhile Char.isWhitespace).reverse

/-- Python `s.strip()`. -/
def strTrim (s : String) : String := String.mk (trimChars s.data)

/-- Python `s.lower()` (ASCII range, which covers the site's labels). -/
def strLower (s : String) : String := String.mk (s.data.map Char.toLower)

/-- Split a character list at newline characters (Python `splitlines` for
the `"\n"`-separated text that `get_text(separator="\n")` produces). -/
def splitOnNl (l : List Char) : List (List Char) :=
  l.foldr
    (fun c acc =>
      if c == '\n' then [] :: acc
      else
        match acc with
        | [] => [[c]]
        | h :: t => (c :: h) :: t)
    [[]]

/-- Split at whitespace runs, dropping empty pieces: Python `s.split()`. -/
def pyTokens (l : List Char) : List (List Char) :=
  (l.foldr
    (fun c acc =>
      if c.isWhitespace then [] :: acc
      else
        match acc with
        | [] => [[c]]
        | h :: t => (c :: h) :: t)
    [[]]).filter (fun p => p ≠ [])

/-- The suffix of `l` after the first occurrence of `sub`, if any. -/
def dropThroughSub (sub : List Char) : List Char → Option (List Char)
  | [] => if isPrefixChars sub [] then some [] else none
  | l@(_ :: t) =>
    if isPrefixChars sub l then some (l.drop sub.length)
    else
      match dropThroughSub sub t with
      | some r => some r
      | none => none

/-- The segment of `l` strictly before the first occurrence of `sub`
(everything, if `sub` does not occur). -/
def takeUntilSub (sub : List Char) : List Char → List Char
  | [] => []
  | l@(c :: t) => if isPrefixChars sub l then [] else c :: takeUntilSub sub t

/-- Numeric value of a digit run. -/
def natOfDigits (ds : List Char) : Nat :=
  ds.foldl (fun n c => n * 10 + (c.toNat - 48)) 0

/-- Python `int(s)`: strip whitespace, optional sign, digits. -/
def pyInt (s : String) : Option Int :=
  match trimChars s.data with
  | '-' :: ds =>
    if ds ≠ [] && ds.all Char.isDigit then some (-(natOfDigits ds : Int)) else none
  | '+' :: ds =>
    if ds ≠ [] && ds.all Char.isDigit then some ((natOfDigits ds : Int)) else none
  | ds =>
    if ds ≠ [] && ds.all Char.isDigit then some ((natOfDigits ds : Int)) else none

/-! ## Association lists standing for Python `dict` -/

/-- `d[k] = v` on a Python dict: overwrite in place, else append. -/
def insertKV {α : Type} : List (String × α) → String → α → List (String × α)
  | [], k, v => [(k, v)]
  | (k', v') :: rest, k, v =>
    if k' == k then (k', v) :: rest else (k', v') :: insertKV rest k v

/-- `d.get(k)` on a Python dict. -/
def lookupKV {α : Type} : List (String × α) → String → Option α
  | [], _ => none
  | (k', v') :: rest, k => if k' == k then some v' else lookupKV rest k

/-! ## SHA-256 (`hashlib.sha256(...).hexdigest()`), over `Nat` bytes -/

/-- 2^32, the word modulus of SHA-256 arithmetic. -/
def M32 : Nat := 4294967296

/-- Right-rotate a 32-bit word. -/
def rotr32 (n x : Nat) : Nat := ((x >>> n) ||| (x <<< (32 - n))) % M32

def smallSigma0 (x : Nat) : Nat := (rotr32 7 x) ^^^ (rotr32 18 x) ^^^ (x >>> 3)

def smallSigma1 (x : Nat) : Nat := (rotr32 17 x) ^^^ (rotr32 19 x) ^^^ (x >>> 10)

def bigSigma0 (x : Nat) : Nat := (rotr32 2 x) ^^^ (rotr32 13 x) ^^^ (rotr32 22 x)

def bigSigma1 (x : Nat) : Nat := (rotr32 6 x) ^^^ (rotr32 11 x) ^^^ (rotr32 25 x)

def chF (x y z : Nat) : Nat := (x &&& y) ^^^ ((x ^^^ 4294967295) &&& z)

def majF (x y z : Nat) : Nat := (x &&& y) ^^^ (x &&& z) ^^^ (y &&& z)

/-- The 64 SHA-256 round constants. -/
def K256 : List Nat :=
  [1116352408, 1899447441, 3049323471, 3921009573, 961987163,
   1508970993, 2453635748, 2870763221, 3624381080, 310598401,
   607225278, 1426881987, 1925078388, 2162078206, 2614888103,
   3248222580, 3835390401, 4022224774, 264347078, 604807628,
   770255983, 1249150122, 1555081692, 1996064986, 2554220882,
   2821834349, 2952996808, 3210313671, 3336571891, 3584528711,
   113926993, 338241895, 666307205, 773529912, 1294757372,
   1396182291, 1695183700, 1986661051, 2177026350, 2456956037,
   2730485921, 2820302411, 3259730800, 3345764771, 3516065817,
   3600352804, 4094571909, 275423344, 430227734, 506948616,
   659060556, 883997877, 958139571, 1322822218, 1537002063,
   1747873779, 1955562222, 2024104815, 2227730452, 2361852424,
   2428436474, 2756734187, 3204031479, 3329325298]

/-- Big-endian byte rendering of `n`, `k` bytes wide. -/
def beBytes : Nat → Nat → List Nat
  | 0, _ => []
  | k + 1, n => beBytes k (n / 256) ++ [n % 256]

/-- Merkle–Damgård padding: append `0x80`, zeros, and the 64-bit bit length. -/
def sha256pad (msg : List Nat) : List Nat :=
  msg ++ [128] ++ List.replicate ((119 - msg.length % 64) % 64) 0
      ++ beBytes 8 (msg.length * 8)

/-- Split into 64-byte blocks (fuelled so that kernel reduction works;
the fuel `l.length` always suffices because each step drops 64 bytes). -/
def chunks64Go : Nat → List Nat → List (List Nat)
  | 0, _ => []
  | fuel + 1, l => if l == [] then [] else l.take 64 :: chunks64Go fuel (l.drop 64)

/-- Split into 64-byte blocks. -/
def chunks64 (l : List Nat) : List (List Nat) := chunks64Go l.length l

/-- Pack bytes into big-endian 32-bit words. -/
def bytesToWords : List Nat → List Nat
  | a :: b :: c :: d :: rest =>
    (a * 16777216 + b * 65536 + c * 256 + d) :: bytesToWords rest
  | _ => []

/-- Extend a 16-word block with `k` further schedule words. -/
def extendSchedule : Nat → List Nat → List Nat
  | 0, w => w
  | k + 1, w =>
    let n := w.length
    let nw := (smallSigma1 (w.getD (n - 2) 0) + w.getD (n - 7) 0
        + smallSigma0 (w.getD (n - 15) 0) + w.getD (n - 16) 0) % M32
    extendSchedule k (w ++ [nw])

/-- The working state of the SHA-256 compression loop. -/
structure Hs where
  a : Nat
  b : Nat
  c : Nat
  d : Nat
  e : Nat
  f : Nat
  g : Nat
  h : Nat

/-- One SHA-256 round, fed a (constant, schedule-word) pair. -/
def roundStep (s : Hs) (kw : Nat × Nat) : Hs :=
  let t1 := (s.h + bigSigma1 s.e + chF s.e s.f s.g + kw.1 + kw.2) % M32
  let t2 := (bigSigma0 s.a + majF s.a s.b s.c) % M32
  { a := (t1 + t2) % M32, b := s.a, c := s.b, d := s.c,
    e := (s.d + t1) % M32, f := s.e, g := s.f, h := s.g }

/-- Compress one 64-byte block into the chaining state. -/
def compressBlock (h0 : Hs) (block : List Nat) : Hs :=
  let w := extendSchedule 48 (bytesToWords block)
  let s := (K256.zip w).foldl roundStep h0
  { a := (h0.a + s.a) % M32, b := (h0.b + s.b) % M32, c := (h0.c + s.c) % M32,
    d := (h0.d + s.d) % M32, e := (h0.e + s.e) % M32, f := (h0.f + s.f) % M32,
    g := (h0.g + s.g) % M32, h := (h0.h + s.h) % M32 }

/-- The SHA-256 initial chaining value. -/
def shaInit : Hs :=
  ⟨1779033703, 3144134277, 1013904242, 2773480762,
   1359893119, 2600822924, 528734635, 1541459225⟩

/-- SHA-256 digest of a byte list, as 32 bytes. -/
def sha256bytes (msg : List Nat) : List Nat :=
  let hs := (chunks64 (sha256pad msg)).foldl compressBlock shaInit
  beBytes 4 hs.a ++ beBytes 4 hs.b ++ beBytes 4 hs.c ++ beBytes 4 hs.d
    ++ beBytes 4 hs.e ++ beBytes 4 hs.f ++ beBytes 4 hs.g ++ beBytes 4 hs.h

/-- Lower-case hex digit. -/
def hexDigit (n : Nat) : Char :=
  if n < 10 then Char.ofNat (48 + n) else Char.ofNat (87 + n)

/-- Lower-case hex string of a byte list. -/
def bytesToHex (bs : List Nat) : String :=
  String.mk ((bs.map (fun b => [hexDigit (b / 16), hexDigit (b % 16)])).flatten)

/-- UTF-8 encoding of one character. -/
def encodeChar (c : Char) : List Nat :=
  let n := c.toNat
  if n < 128 then [n]
  else if n < 2048 then [192 + n / 64, 128 + n % 64]
  else if n < 65536 then [224 + n / 4096, 128 + (n / 64) % 64, 128 + n % 64]
  else [240 + n / 262144, 128 + (n / 4096) % 64, 128 + (n / 64) % 64, 128 + n % 64]

/-- UTF-8 bytes of a string (`s.encode("utf-8")`). -/
def utf8Bytes (s : String) : List Nat := (s.data.map encodeChar).flatten

/-- `hashlib.sha256(s.encode("utf-8")).hexdigest()`. -/
def sha256hex (s : String) : String := bytesToHex (sha256bytes (utf8Bytes s))

/-- Sanity check against the FIPS 180-2 test vector for `"abc"`. -/
theorem sha256hex_abc :
    sha256hex "abc"
      = "ba7816bf8f01cfea414140de5dae2223b00361a396177a9cb410ff61f20015ad" := by
  decide

/-- Sanity check against the standard empty-message digest. -/
theorem sha256hex_empty :
    sha256hex ""
      = "e3b0c44298fc1c149afbf4c8996fb92427ae41e4649b934ca495991b7852b855" := by
  decide

/-! ## Site constants and the Category Classifier (`client.py` lines 16-64) -/

/-- `HallOfEternalChampionsClient.BASE_URL`. -/
def BASE_URL : String := "https://www.hallofeternalchampions.com"

/-- `HallOfEternalChampionsClient.CATEGORIES`, in insertion order. -/
def CATEGORIES : List (String × String) :=
  [("gods", BASE_URL ++ "/gods"),
   ("heroes", BASE_URL ++ "/heroes"),
   ("monsters", BASE_URL ++ "/monsters"),
   ("summons", BASE_URL ++ "/summons"),
   ("artefacts", BASE_URL ++ "/artefacts"),
   ("gamedefinitions", BASE_URL ++ "/gamedefinitions"),
   ("conditions", BASE_URL ++ "/pages/conditions"),
   ("faqs", BASE_URL ++ "/faqs"),
   ("errata", BASE_URL ++ "/errata")]

def getCategoryFromUrlGo : List (String × String) → String → String
  | [], _ => "unknown"
  | (name, curl) :: rest, url =>
    if strStartsWith url curl then name else getCategoryFromUrlGo rest url

/-- `_get_category_from_url`: first category whose URL prefixes `url`. -/
def getCategoryFromUrl (url : String) : String := getCategoryFromUrlGo CATEGORIES url

/-- `url in self.CATEGORIES.values()` (request handler, line 1092). -/
def isListPage (url : String) : Bool := CATEGORIES.any (fun p => p.2 == url)

/-! ## Link Discoverer (`_extract_list_page_links`, lines 66-82) -/

/-- Relative-href resolution: `BASE_URL + href` when `href` starts with `/`. -/
def resolveHref (href : String) : String :=
  if strStartsWith href "/" then BASE_URL ++ href else href

/-- `_extract_list_page_links`: anchors are given by their `href` values; the
final Python `list(set(links))` materializes a set, modelled here as an
order-preserving deduplication (same set, no duplicates). -/
def extractListPageLinks (anchors : List String) (baseCategoryUrl : String) :
    List String :=
  ((anchors.map resolveHref).filter
      (fun u => strStartsWith u baseCategoryUrl && u != baseCategoryUrl)).dedup

/-! ## The Consolidation Store (`_extract_hero_abilities`, lines 997-1043) -/

/-- One element of an ability document's `entities` list. -/
structure EntityRef where
  name : String
  url : String
  category : String
deriving DecidableEq, Repr

/-- A consolidated ability document (`ability_doc`); `docId` is the dict's
`"_id"` key. -/
structure AbilityDoc where
  docId : String
  url : String
  title : String
  text : String
  category : String
  cost : String
  entities : List EntityRef
deriving DecidableEq, Repr

/-- `self._ability_documents`: a dict keyed by ability title. -/
abbrev Store := List (String × AbilityDoc)

/-- The entity category computed at lines 1010-1012 / 1026-1028:
a function of the page URL alone. -/
def entityCategory (url : String) : String :=
  if strContains url "/monsters/" then "monster"
  else if strContains url "/summons/" then "summon"
  else "hero"

/-- The `entity_ref` dict built at lines 1007-1013 / 1023-1029. -/
def mkEntityRef (heroName url : String) : EntityRef :=
  { name := heroName, url := url, category := entityCategory url }

/-- Python `s.replace(pat, rep)` (all non-overlapping occurrences,
left to right), fuelled for kernel reduction; `pat` is nonempty at every
use site. -/
def replaceSubGo (pat rep : List Char) : Nat → List Char → List Char
  | 0, l => l
  | _, [] => []
  | fuel + 1, l@(c :: t) =>
    if !pat.isEmpty && isPrefixChars pat l then
      rep ++ replaceSubGo pat rep fuel (l.drop pat.length)
    else c :: replaceSubGo pat rep fuel t

/-- Python `s.replace(pat, rep)`. -/
def strReplace (s pat rep : String) : String :=
  String.mk (replaceSubGo pat.data rep.data s.data.length s.data)

/-- `hashlib.sha256(ability_title.encode("utf-8")).hexdigest()`
(lines 1019-1021): the ability id hashes the title alone. -/
def abilityDocId (title : String) : String := sha256hex title

/-- The synthetic `url` of an ability document (line 1033). -/
def abilityAnchorUrl (title : String) : String :=
  "#ability-" ++ strReplace (strReplace (strReplace (strLower title) " " "-") "(" "") ")" ""

/-- The consolidation operation of lines 997-1043: create on first reveal,
otherwise append the entity reference only when the exact reference is not
yet present; all other fields of the existing document are left untouched. -/
def recordAbility (store : Store)
    (abilityTitle abilityText abilityType cost heroName url : String) : Store :=
  let entityRef := mkEntityRef heroName url
  match lookupKV store abilityTitle with
  | some existingDoc =>
    if entityRef ∈ existingDoc.entities then store
    else
      insertKV store abilityTitle
        { existingDoc with entities := existingDoc.entities ++ [entityRef] }
  | none =>
    store ++ [(abilityTitle,
      { docId := abilityDocId abilityTitle,
        url := abilityAnchorUrl abilityTitle,
        title := abilityTitle,
        text := abilityText,
        category := abilityType,
        cost := cost,
        entities := [mkEntityRef heroName url] })]

/-- A reference as stored by the code: its category is determined by its URL. -/
def WellFormedRef (r : EntityRef) : Prop := r.category = entityCategory r.url

/-- The store invariant of §4.5: one record per title, titles key their own
records, no duplicate (name, url) pairs among a record's references, and
every reference's category agrees with its URL. -/
structure StoreInv (store : Store) : Prop where
  keysNodup : (store.map Prod.fst).Nodup
  titleMatches : ∀ p ∈ store, (p.2 : AbilityDoc).title = p.1
  pairsNodup : ∀ p ∈ store,
    ((p.2 : AbilityDoc).entities.map (fun r => (r.name, r.url))).Nodup
  refsWF : ∀ p ∈ store, ∀ r ∈ (p.2 : AbilityDoc).entities, WellFormedRef r

/-! ## Association-list lemmas -/

theorem lookupKV_eq_none_iff {α : Type} (l : List (String × α)) (k : String) :
    lookupKV l k = none ↔ k ∉ l.map Prod.fst := by
  induction l with
  | nil => simp [lookupKV]
  | cons p rest ih =>
    obtain ⟨k', v'⟩ := p
    by_cases h : k' = k <;> simp [lookupKV, h, ih, Ne.symm]

theorem lookupKV_mem {α : Type} {l : List (String × α)} {k : String} {v : α}
    (h : lookupKV l k = some v) : (k, v) ∈ l := by
  induction l with
  | nil => simp [lookupKV] at h
  | cons p rest ih =>
    obtain ⟨k', v'⟩ := p
    by_cases hk : k' = k
    · simp [lookupKV, hk] at h
      simp [hk, h]
    · simp [lookupKV, hk] at h
      exact List.mem_cons_of_mem _ (ih h)

theorem lookupKV_append_right {α : Type} (l : List (String × α)) (k : String)
    (v : α) (h : lookupKV l k = none) : lookupKV (l ++ [(k, v)]) k = some v := by
  induction l with
  | nil => simp [lookupKV]
  | cons p rest ih =>
    obtain ⟨k', v'⟩ := p
    by_cases hk : k' = k
    · simp [lookupKV, hk] at h
    · simp [lookupKV, hk] at h ⊢
      exact ih h

theorem lookupKV_insertKV_self {α : Type} (l : List (String × α)) (k : String)
    (v : α) : lookupKV (insertKV l k v) k = some v := by
  induction l with
  | nil => simp [insertKV, lookupKV]
  | cons p rest ih =>
    obtain ⟨k', v'⟩ := p
    by_cases hk : k' = k <;> simp [insertKV, lookupKV, hk, ih]

theorem lookupKV_insertKV_ne {α : Type} (l : List (String × α)) (k k' : String)
    (v : α) (h : k' ≠ k) : lookupKV (insertKV l k v) k' = lookupKV l k' := by
  induction l with
  | nil => simp [insertKV, lookupKV, Ne.symm h]
  | cons p rest ih =>
    obtain ⟨k0, v0⟩ := p
    by_cases hk : k0 = k
    · subst hk
      simp [insertKV, lookupKV, Ne.symm h]
    · simp [insertKV, lookupKV, hk, ih]

theorem mem_insertKV {α : Type} {l : List (String × α)} {k : String} {v : α}
    {p : String × α} (h : p ∈ insertKV l k v) : p = (k, v) ∨ p ∈ l := by
  induction l with
  | nil => simp [insertKV] at h; simp [h]
  | cons q rest ih =>
    obtain ⟨k', v'⟩ := q
    by_cases hk : k' = k
    · subst hk
      simp [insertKV] at h
      rcases h with h | h
      · exact Or.inl (by simp [h])
      · exact Or.inr (List.mem_cons_of_mem _ h)
    · simp [insertKV, hk] at h
      rcases h with h | h
      · exact Or.inr (by simp [h])
      · rcases ih h with h' | h'
        · exact Or.inl h'
        · exact Or.inr (List.mem_cons_of_mem _ h')

theorem map_fst_insertKV_of_mem {α : Type} {l : List (String × α)} {k : String}
    (hk : k ∈ l.map Prod.fst) (v : α) :
    (insertKV l k v).map Prod.fst = l.map Prod.fst := by
  induction l with
  | nil => simp at hk
  | cons q rest ih =>
    obtain ⟨k', v'⟩ := q
    by_cases h : k' = k
    · simp [insertKV, h]
    · rw [List.map_cons, List.mem_cons] at hk
      rcases hk with hk | hk
      · exact absurd hk.symm h
      · simp [insertKV, h, ih hk]

/-- Under the category-from-URL discipline, exact membership of the entity
reference coincides with membership of its (name, url) pair. -/
theorem ref_mem_iff_pair_mem {ents : List EntityRef} {n u : String}
    (hwf : ∀ r ∈ ents, WellFormedRef r) :
    mkEntityRef n u ∈ ents
      ↔ ents.any (fun r => r.name == n && r.url == u) = true := by
  constructor
  · intro h
    exact List.any_eq_true.mpr ⟨_, h, by simp [mkEntityRef]⟩
  · intro h
    obtain ⟨r, hr, hcond⟩ := List.any_eq_true.mp h
    rw [Bool.and_eq_true, beq_iff_eq, beq_iff_eq] at hcond
    obtain ⟨h1, h2⟩ := hcond
    have hwfr := hwf r hr
    have : r = mkEntityRef n u := by
      obtain ⟨rn, ru, rc⟩ := r
      simp only [WellFormedRef] at hwfr
      simp only at h1 h2
      subst h1 h2
      simp [mkEntityRef, hwfr]
    exact this ▸ hr

/-- **C1** The Consolidation Store keeps at most one `AbilityRecord` per
distinct title.  `recordAbility` preserves the store invariant (unique
titles, duplicate-free (name, url) reference pairs); a new title creates a
record with a single-element entity list; an existing title keeps its
first-capture text, kind and cost untouched, and gains the new entity
reference exactly when no stored reference carries the same (name, url)
pair.  Consequently any sequence of reveals of one title leaves exactly one
record for it, with no duplicate (name, url) pairs. -/
theorem recordAbility_consolidation (store : Store)
    (t x k c n u : String) (hinv : StoreInv store) :
    StoreInv (recordAbility store t x k c n u) ∧
    (lookupKV store t = none →
      lookupKV (recordAbility store t x k c n u) t = some
        { docId := abilityDocId t, url := abilityAnchorUrl t, title := t,
          text := x, category := k, cost := c, entities := [mkEntityRef n u] }) ∧
    (∀ d : AbilityDoc, lookupKV store t = some d →
      lookupKV (recordAbility store t x k c n u) t = some
        (if d.entities.any (fun r => r.name == n && r.url == u)
         then d
         else { d with entities := d.entities ++ [mkEntityRef n u] })) := by
  refine ⟨?_, ?_, ?_⟩
  · -- invariant preservation
    unfold recordAbility
    cases hl : lookupKV store t with
    | none =>
      simp only
      have htnot : t ∉ store.map Prod.fst := (lookupKV_eq_none_iff store t).mp hl
      constructor
      · rw [List.map_append]
        rw [List.nodup_append]
        refine ⟨hinv.keysNodup, by simp, ?_⟩
        intro a ha
        simp only [List.map_cons, List.map_nil, List.mem_singleton]
        intro hb
        exact htnot (hb ▸ ha)
      · intro p hp
        rcases List.mem_append.mp hp with hp | hp
        · exact hinv.titleMatches p hp
        · simp at hp
          simp [hp]
      · intro p hp
        rcases List.mem_append.mp hp with hp | hp
        · exact hinv.pairsNodup p hp
        · simp at hp
          simp [hp]
      · intro p hp r hr
        rcases List.mem_append.mp hp with hp | hp
        · exact hinv.refsWF p hp r hr
        · simp at hp
          rw [hp] at hr
          simp at hr
          rw [hr]
          rfl
    | some d =>
      simp only
      by_cases hmem : mkEntityRef n u ∈ d.entities
      · simp [hmem]
        exact hinv
      · simp only [hmem, if_false]
        have hdt : (t, d) ∈ store := lookupKV_mem hl
        have ht : t ∈ store.map Prod.fst := by
          exact List.mem_map.mpr ⟨(t, d), hdt, rfl⟩
        constructor
        · rw [map_fst_insertKV_of_mem ht]
          exact hinv.keysNodup
        · intro p hp
          rcases mem_insertKV hp with hp | hp
          · rw [hp]
            exact hinv.titleMatches (t, d) hdt
          · exact hinv.titleMatches p hp
        · intro p hp
          rcases mem_insertKV hp with hp | hp
          · rw [hp]
            simp only [List.map_append]
            rw [List.nodup_append]
            refine ⟨hinv.pairsNodup (t, d) hdt, by simp, ?_⟩
            intro a ha
            simp only [List.map_cons, List.map_nil, List.mem_singleton]
            intro hb
            subst hb
            obtain ⟨r, hr, hruv⟩ := List.mem_map.mp ha
            have hwfr := hinv.refsWF (t, d) hdt r hr
            apply hmem
            obtain ⟨rn, ru, rc⟩ := r
            simp only [Prod.mk.injEq] at hruv
            have hwfr2 : rc = entityCategory ru := hwfr
            have hre : EntityRef.mk rn ru rc = mkEntityRef n u := by
              simp only [mkEntityRef, EntityRef.mk.injEq]
              refine ⟨hruv.1, hruv.2, ?_⟩
              rw [hwfr2, hruv.2]
              rfl
            exact hre ▸ hr
          · exact hinv.pairsNodup p hp
        · intro p hp r hr
          rcases mem_insertKV hp with hp | hp
          · rw [hp] at hr
            simp at hr
            rcases hr with hr | hr
            · exact hinv.refsWF (t, d) hdt r hr
            · rw [hr]
              rfl
          · exact hinv.refsWF p hp r hr
  · -- creation on a new title
    intro hl
    unfold recordAbility
    rw [hl]
    exact lookupKV_append_right store t _ hl
  · -- update on an existing title
    intro d hl
    unfold recordAbility
    rw [hl]
    have hwf := hinv.refsWF (t, d) (lookupKV_mem hl)
    have hiff := @ref_mem_iff_pair_mem d.entities n u (fun r hr => hwf r hr)
    by_cases hmem : mkEntityRef n u ∈ d.entities
    · have hany := hiff.mp hmem
      simp only [hmem, if_true, hany]
      exact hl
    · have hany : d.entities.any (fun r => r.name == n && r.url == u) = false := by
        rw [Bool.eq_false_iff]
        intro hcon
        exact hmem (hiff.mpr hcon)
      simp only [hmem, if_false, hany]
      exact lookupKV_insertKV_self store t _

/-- Witness for C1 at a concrete input: the invariant holds after recording
one reveal into the empty store. -/
theorem recordAbility_consolidation_witness :
    StoreInv (recordAbility [] "Fly" "Fly: ignore terrain." "active" "1AP"
      "Skye" (BASE_URL ++ "/heroes/skye")) :=
  (recordAbility_consolidation [] "Fly" "Fly: ignore terrain." "active" "1AP"
      "Skye" (BASE_URL ++ "/heroes/skye")
      ⟨by simp, by simp, by simp, by simp⟩).1

/-- **C4** The Link Discoverer is idempotent and duplicate-free: on equal
markup it returns equal results (hence identical sets); every returned URL
starts with the listing root, none equals the root itself, and the returned
collection has no duplicates under exact string equality. -/
theorem extract_list_page_links_spec (anchors : List String) (base : String) :
    (∀ u ∈ extractListPageLinks anchors base,
        strStartsWith u base = true ∧ u ≠ base) ∧
    (extractListPageLinks anchors base).Nodup ∧
    (∀ anchors2 : List String, anchors2 = anchors →
        extractListPageLinks anchors2 base = extractListPageLinks anchors base) := by
  refine ⟨?_, List.nodup_dedup _, ?_⟩
  · intro u hu
    unfold extractListPageLinks at hu
    rw [List.mem_dedup] at hu
    have hcond := List.of_mem_filter hu
    rw [Bool.and_eq_true, bne_iff_ne] at hcond
    exact ⟨hcond.1, hcond.2⟩
  · intro anchors2 h
    rw [h]

/-- Witness for C4 at a concrete listing page: the element produced from a
relative anchor satisfies the prefix and inequality guarantees, and a
repeated run returns the identical list. -/
theorem extract_list_page_links_spec_witness :
    (strStartsWith "https://www.hallofeternalchampions.com/heroes/skye"
        (BASE_URL ++ "/heroes") = true ∧
      "https://www.hallofeternalchampions.com/heroes/skye" ≠ BASE_URL ++ "/heroes") ∧
    extractListPageLinks ["/heroes/skye", "/heroes", "/heroes/skye"]
        (BASE_URL ++ "/heroes")
      = extractListPageLinks ["/heroes/skye", "/heroes", "/heroes/skye"]
        (BASE_URL ++ "/heroes") :=
  ⟨(extract_list_page_links_spec ["/heroes/skye", "/heroes", "/heroes/skye"]
      (BASE_URL ++ "/heroes")).1 _ (by decide),
   (extract_list_page_links_spec ["/heroes/skye", "/heroes", "/heroes/skye"]
      (BASE_URL ++ "/heroes")).2.2 _ rfl⟩

/-! ## Field Extractor: attribute tables, weapon tables, health grids
(`_parse_hero_page` lines 231-351, `_parse_monster_or_summon_page`
lines 400-474) -/

/-- A table cell as the code observes it: its stripped text and whether it
contains an `svg` element. -/
structure Cell where
  text : String
  hasSvg : Bool
deriving DecidableEq, Repr

/-- A table as the code queries it: the `thead tr` header texts (if the
`thead`/`tr` exists) and the `tbody` rows (if the `tbody` exists). -/
structure Table where
  headerRow : Option (List String)
  tbodyRows : Option (List (List Cell))
deriving DecidableEq, Repr

/-- One attribute cell (lines 257-271 and 423-436): verbatim text is kept
only when nonempty, not `"-"`, and the cell holds no `svg`; a cell holding
an `svg` records `placeholder` (`"-"` on hero pages, `"0"` on
monster/summon pages); anything else is omitted. -/
def attrCellStep (placeholder : String) (acc : List (String × String))
    (hc : String × Cell) : List (String × String) :=
  let (attrName, cell) := hc
  if cell.text != "" && cell.text != "-" && !cell.hasSvg then
    insertKV acc attrName cell.text
  else if cell.hasSvg then insertKV acc attrName placeholder
  else acc

/-- The attribute bag from a table: header row names the columns and the
first `tbody` row supplies the values; cells beyond the headers are
ignored (`if i < len(headers)`). -/
def attributesFromTable (placeholder : String) (t : Option Table) :
    List (String × String) :=
  match t with
  | none => []
  | some tbl =>
    match tbl.headerRow with
    | none => []
    | some headers =>
      match tbl.tbodyRows with
      | none => []
      | some [] => []
      | some (row :: _) => (headers.zip row).foldl (attrCellStep placeholder) []

/-- A weapon entry (the dict of lines 300-308 / 463-471). -/
structure Weapon where
  name : String
  type : String
  cost : String
  reach : String
  glance : String
  solid : String
  crit : String
deriving DecidableEq, Repr

/-- One weapon row (lines 297-309 / 460-472): kept only when it has at
least 7 cells, taking the first seven. -/
def weaponOfRow (cells : List Cell) : Option Weapon :=
  match cells with
  | c0 :: c1 :: c2 :: c3 :: c4 :: c5 :: c6 :: _ =>
    some { name := c0.text, type := c1.text, cost := c2.text, reach := c3.text,
           glance := c4.text, solid := c5.text, crit := c6.text }
  | _ => none

/-- The weapon list from a table: the header row must exist (its contents
are unused); every `tbody` row is screened by `weaponOfRow`. -/
def weaponsFromTable (t : Option Table) : List Weapon :=
  match t with
  | none => []
  | some tbl =>
    match tbl.headerRow with
    | none => []
    | some _ =>
      match tbl.tbodyRows with
      | none => []
      | some rows => rows.filterMap weaponOfRow

/-- A health-grid cell: text of its label div (class `text-muted-foreground`)
and of its value div (class `font-bold`), when those exist. -/
structure HealthCell where
  label : Option String
  value : Option String
deriving DecidableEq, Repr

/-- `re.search(r"Level\s+(\d+)", label)` (line 343): find `Level`, at least
one whitespace character, then a digit run. -/
def levelSearchAux : List Char → Option Nat
  | [] => none
  | l@(_ :: t) =>
    if isPrefixChars ['L', 'e', 'v', 'e', 'l'] l then
      let rest := l.drop 5
      let ws := rest.takeWhile Char.isWhitespace
      let ds := (rest.dropWhile Char.isWhitespace).takeWhile Char.isDigit
      if !ws.isEmpty && !ds.isEmpty then some (natOfDigits ds)
      else levelSearchAux t
    else levelSearchAux t

/-- The level number parsed from a grid label, if it matches. -/
def levelOf (label : String) : Option Nat := levelSearchAux label.data

/-- Lines 330-349: a cell contributes only when both divs exist, the label
matches `Level N`, and `int(value)` succeeds. -/
def healthEntryOfCell (c : HealthCell) : Option (Nat × Int) :=
  match c.label, c.value with
  | some lab, some val =>
    match levelOf lab with
    | some n =>
      match pyInt val with
      | some v => some (n, v)
      | none => none
    | none => none
  | _, _ => none

/-- The `health` dict entry a cell would produce: key `level_N`. -/
def healthPair (c : HealthCell) : Option (String × Int) :=
  match healthEntryOfCell c with
  | some (n, v) => some ("level_" ++ toString n, v)
  | none => none

/-- Processing one grid cell into the `health` dict. -/
def healthStep (acc : List (String × Int)) (c : HealthCell) :
    List (String × Int) :=
  match healthPair c with
  | some (k, v) => insertKV acc k v
  | none => acc

/-- The `health` dict from the grid under the `Health` heading (lines
313-351); `none` when the heading or its grid container is missing. -/
def healthFromGrid (g : Option (List HealthCell)) : List (String × Int) :=
  match g with
  | none => []
  | some cells => cells.foldl healthStep []

/-- **C5 counterexample** A cell whose text is `"3"` but which also contains
an `svg` element is recorded as the placeholder `"-"`, not retained
verbatim as the claim states for \"a cell with any other text\". -/
theorem attribute_cell_svg_counterexample :
    attributesFromTable "-"
        (some { headerRow := some ["Speed"],
                tbodyRows := some [[{ text := "3", hasSvg := true }]] })
      = [("Speed", "-")] ∧
    attributesFromTable "-"
        (some { headerRow := some ["Speed"],
                tbodyRows := some [[{ text := "3", hasSvg := true }]] })
      ≠ [("Speed", "3")] := by
  constructor
  · rfl
  · decide

/-- **C5 (amended)** Per attribute cell: a cell containing an `svg` icon is
recorded as the explicit placeholder (`"-"` for heroes, `"0"` for
creatures) regardless of its text; otherwise a cell with nonempty,
non-dash text is retained verbatim and any other cell is omitted.  The
claim's concrete example holds: header `[Speed, Might]` with data row
`[3, -]` yields exactly `{Speed: "3"}`, and an icon-only cell yields the
explicit `"0"` on creature pages. -/
theorem attribute_cell_policy (placeholder attrName : String)
    (acc : List (String × String)) (c : Cell) :
    (attrCellStep placeholder acc (attrName, c) =
      if c.hasSvg then insertKV acc attrName placeholder
      else if c.text != "" && c.text != "-" then insertKV acc attrName c.text
      else acc) ∧
    attributesFromTable "-"
        (some { headerRow := some ["Speed", "Might"],
                tbodyRows := some [[{ text := "3", hasSvg := false },
                                    { text := "-", hasSvg := false }]] })
      = [("Speed", "3")] ∧
    attributesFromTable "0"
        (some { headerRow := some ["Might"],
                tbodyRows := some [[{ text := "", hasSvg := true }]] })
      = [("Might", "0")] := by
  refine ⟨?_, by decide, by decide⟩
  obtain ⟨tx, sv⟩ := c
  cases sv <;> simp [attrCellStep]

/-- **C8** Weapon-table extraction: a row with at least 7 cells yields the
weapon built from its first seven cells; a row with fewer than 7 cells is
skipped entirely (no partial entry); and the table's weapon list is
exactly the per-row screening applied to every `tbody` row. -/
theorem weapon_row_policy (c0 c1 c2 c3 c4 c5 c6 : Cell) (rest : List Cell)
    (hdr : List String) (rows : List (List Cell)) :
    weaponOfRow (c0 :: c1 :: c2 :: c3 :: c4 :: c5 :: c6 :: rest) =
      some { name := c0.text, type := c1.text, cost := c2.text,
             reach := c3.text, glance := c4.text, solid := c5.text,
             crit := c6.text } ∧
    (∀ cells : List Cell, cells.length < 7 → weaponOfRow cells = none) ∧
    weaponsFromTable (some { headerRow := some hdr, tbodyRows := some rows })
      = rows.filterMap weaponOfRow := by
  refine ⟨rfl, ?_, rfl⟩
  intro cells h
  match cells with
  | [] => rfl
  | [a] => rfl
  | [a, b] => rfl
  | [a, b, c] => rfl
  | [a, b, c, d] => rfl
  | [a, b, c, d, e] => rfl
  | [a, b, c, d, e, f] => rfl
  | a :: b :: c :: d :: e :: f :: g :: t => simp at h; omega

/-- Witness for C8: a 6-cell row is skipped; a 7-cell row is recorded. -/
theorem weapon_row_policy_witness :
    weaponOfRow [{ text := "Sword", hasSvg := false },
      { text := "Melee", hasSvg := false }, { text := "1AP", hasSvg := false },
      { text := "1", hasSvg := false }, { text := "2", hasSvg := false },
      { text := "3", hasSvg := false }] = none ∧
    weaponOfRow [{ text := "Sword", hasSvg := false },
      { text := "Melee", hasSvg := false }, { text := "1AP", hasSvg := false },
      { text := "1", hasSvg := false }, { text := "2", hasSvg := false },
      { text := "3", hasSvg := false }, { text := "5", hasSvg := false }]
      = some { name := "Sword", type := "Melee", cost := "1AP", reach := "1",
               glance := "2", solid := "3", crit := "5" } :=
  ⟨(weapon_row_policy { text := "", hasSvg := false }
      { text := "", hasSvg := false } { text := "", hasSvg := false }
      { text := "", hasSvg := false } { text := "", hasSvg := false }
      { text := "", hasSvg := false } { text := "", hasSvg := false }
      [] [] []).2.1 _ (by decide),
   (weapon_row_policy { text := "Sword", hasSvg := false }
      { text := "Melee", hasSvg := false } { text := "1AP", hasSvg := false }
      { text := "1", hasSvg := false } { text := "2", hasSvg := false }
      { text := "3", hasSvg := false } { text := "5", hasSvg := false }
      [] [] []).1⟩

theorem lookupKV_foldl_insert_notmem {α : Type} :
    ∀ (ps acc : List (String × α)) (k : String),
      k ∉ ps.map Prod.fst →
      lookupKV (ps.foldl (fun a p => insertKV a p.1 p.2) acc) k = lookupKV acc k := by
  intro ps
  induction ps with
  | nil => intro acc k _; rfl
  | cons p rest ih =>
    intro acc k h
    simp only [List.map_cons, List.mem_cons] at h
    push_neg at h
    rw [List.foldl_cons, ih _ k h.2, lookupKV_insertKV_ne _ _ _ _ h.1]

theorem lookupKV_foldl_insert_mem {α : Type} :
    ∀ (ps acc : List (String × α)) (k : String) (v : α),
      (ps.map Prod.fst).Nodup → (k, v) ∈ ps →
      lookupKV (ps.foldl (fun a p => insertKV a p.1 p.2) acc) k = some v := by
  intro ps
  induction ps with
  | nil => intro acc k v _ hm; simp at hm
  | cons p rest ih =>
    intro acc k v hnd hm
    obtain ⟨k0, v0⟩ := p
    simp only [List.map_cons, List.nodup_cons] at hnd
    rcases List.mem_cons.mp hm with hm | hm
    · simp only [Prod.mk.injEq] at hm
      obtain ⟨hk, hv⟩ := hm
      subst hk
      subst hv
      rw [List.foldl_cons]
      rw [lookupKV_foldl_insert_notmem rest _ k hnd.1]
      exact lookupKV_insertKV_self acc k v
    · rw [List.foldl_cons]
      exact ih _ k v hnd.2 hm

/-- The health fold is the dict built from the cells' contributions. -/
theorem healthFold_filterMap (cells : List HealthCell) :
    ∀ acc, cells.foldl healthStep acc
      = (cells.filterMap healthPair).foldl (fun a p => insertKV a p.1 p.2) acc := by
  induction cells with
  | nil => intro acc; rfl
  | cons c t ih =>
    intro acc
    rw [List.foldl_cons]
    cases hc : healthPair c with
    | none =>
      simp only [List.filterMap_cons, hc]
      rw [show healthStep acc c = acc by unfold healthStep; rw [hc]]
      exact ih acc
    | some kv =>
      obtain ⟨k1, v1⟩ := kv
      simp only [List.filterMap_cons, hc, List.foldl_cons]
      rw [show healthStep acc c = insertKV acc k1 v1 by
        unfold healthStep; rw [hc]]
      exact ih _

/-- **C9** Health-grid extraction: the claim's concrete example holds; a
cell that contributes nothing (its label fails the `Level N` pattern, or a
div is missing, or the value is non-numeric) is ignored without affecting
the other levels; and when the contributing cells carry pairwise-distinct
keys, each matching cell's `level_N` maps to its own bold value. -/
theorem health_grid_extraction (pre post cells : List HealthCell)
    (c0 : HealthCell) (n : Nat) (v : Int) :
    healthFromGrid (some [{ label := some "Level 1", value := some "10" },
        { label := some "Level 2", value := some "14" }])
      = [("level_1", 10), ("level_2", 14)] ∧
    (healthEntryOfCell c0 = none →
      healthFromGrid (some (pre ++ c0 :: post))
        = healthFromGrid (some (pre ++ post))) ∧
    (((cells.filterMap healthPair).map Prod.fst).Nodup →
      ∀ c1 ∈ cells, healthEntryOfCell c1 = some (n, v) →
        lookupKV (healthFromGrid (some cells)) ("level_" ++ toString n)
          = some v) := by
  refine ⟨by decide, ?_, ?_⟩
  · intro h
    simp only [healthFromGrid]
    rw [List.foldl_append, List.foldl_append, List.foldl_cons]
    rw [show healthStep (pre.foldl healthStep []) c0 = pre.foldl healthStep [] by
      unfold healthStep healthPair; rw [h]]
  · intro hnd c1 hc1 hentry
    simp only [healthFromGrid]
    rw [healthFold_filterMap]
    refine lookupKV_foldl_insert_mem _ _ _ _ hnd ?_
    exact List.mem_filterMap.mpr ⟨c1, hc1, by unfold healthPair; rw [hentry]⟩

/-- Witness for C9: a non-matching cell between two matching ones is
ignored, and a matching cell's level is looked up to its own value. -/
theorem health_grid_extraction_witness :
    healthFromGrid (some ([{ label := some "Level 1", value := some "10" }]
        ++ { label := some "Bounty", value := some "5" }
          :: [{ label := some "Level 2", value := some "14" }]))
      = healthFromGrid (some ([{ label := some "Level 1", value := some "10" }]
        ++ [{ label := some "Level 2", value := some "14" }])) ∧
    lookupKV (healthFromGrid (some [{ label := some "Level 1", value := some "10" },
        { label := some "Level 2", value := some "14" }])) "level_2" = some 14 :=
  ⟨(health_grid_extraction [{ label := some "Level 1", value := some "10" }]
      [{ label := some "Level 2", value := some "14" }] []
      { label := some "Bounty", value := some "5" } 0 0).2.1 (by decide),
   (health_grid_extraction [] [] [{ label := some "Level 1", value := some "10" },
      { label := some "Level 2", value := some "14" }]
      { label := none, value := none } 2 14).2.2 (by decide)
      { label := some "Level 2", value := some "14" } (by decide) (by decide)⟩

/-! ## Interactive Revealer (`_extract_hero_abilities`, lines 843-1080) -/

/-- A Playwright button as the code observes it: `inner_text()`, visibility,
enabledness, and the text of the first overlay container found after
clicking it (`none` when no selector in the priority list matches; the
selector priority order is abstracted into this single query result). -/
structure Button where
  text : String
  visible : Bool
  enabled : Bool
  modal : Option String
deriving DecidableEq, Repr

/-- An `h2` heading together with the texts of the `button[type=button]`
descendants of its parent (lines 867-894). -/
structure Heading where
  text : String
  buttons : List String
deriving DecidableEq, Repr

/-- Lines 868-882: the ability kind named by a heading, if any. -/
def headingKind (t : String) : Option String :=
  let lt := strLower t
  if strContains lt "innate" then some "innate"
  else if strContains lt "active" then some "active"
  else if strContains lt "combat" || strContains lt "manoeuvre"
      || strContains lt "maneuver" then some "combat_manoeuvre"
  else none

/-- Lines 864-894: `button_to_type`, mapping button text to ability kind;
buttons with empty text or a `description`-containing label are excluded. -/
def buildButtonMap (headings : List Heading) : List (String × String) :=
  headings.foldl
    (fun m h =>
      match headingKind h.text with
      | none => m
      | some k =>
        h.buttons.foldl
          (fun m2 bt =>
            if bt != "" && !strContains (strLower bt) "description" then
              insertKV m2 bt k
            else m2) m)
    []

/-- Lines 900-916: partition visible-and-enabled buttons into the (last)
description button and the ordered list of other buttons. -/
def splitButtons (bs : List Button) : Option Button × List Button :=
  bs.foldl
    (fun acc b =>
      if b.visible && b.enabled then
        if strContains (strLower (strTrim b.text)) "description" then
          (some b, acc.2)
        else (acc.1, acc.2 ++ [b])
      else acc)
    (none, [])

/-- The `abilities_data` dict initialised at lines 851-856. -/
structure AbilitiesData where
  innate_abilities : List String
  active_abilities : List String
  combat_manoeuvres : List String
  accumulated_text : List String
deriving DecidableEq, Repr

def emptyAbilities : AbilitiesData :=
  { innate_abilities := [], active_abilities := [],
    combat_manoeuvres := [], accumulated_text := [] }

/-- State threaded through the click loop: the growing `abilities_data`,
the consolidation store, and the ordered log of clicked button labels. -/
structure RevealState where
  data : AbilitiesData
  store : Store
  clickLog : List String
deriving DecidableEq, Repr

/-- `re.search(r"Cost:\s*([^\n]+)", text)` (line 968): find `Cost:`, skip
whitespace greedily (backtracking into a trailing space/tab run when
everything after is whitespace), capture to end of line. -/
def costSearchAux : List Char → Option (List Char)
  | [] => none
  | l@(_ :: t) =>
    if isPrefixChars ['C', 'o', 's', 't', ':'] l then
      let rest := l.drop 5
      let ws := rest.takeWhile Char.isWhitespace
      let cap := rest.dropWhile Char.isWhitespace
      if !cap.isEmpty then some (cap.takeWhile (fun c => c != '\n'))
      else
        let tail := (ws.reverse.takeWhile (fun c => c != '\n')).reverse
        if !tail.isEmpty then some tail else costSearchAux t
    else costSearchAux t

/-- `re.search(r"\((\d+(?:AP|F|S))\)", title)` (lines 971-974). -/
def titleCostAux : List Char → Option (List Char)
  | [] => none
  | '(' :: t =>
    let ds := t.takeWhile Char.isDigit
    let rest := t.drop ds.length
    if !ds.isEmpty then
      match rest with
      | 'A' :: 'P' :: ')' :: _ => some (ds ++ ['A', 'P'])
      | 'F' :: ')' :: _ => some (ds ++ ['F'])
      | 'S' :: ')' :: _ => some (ds ++ ['S'])
      | _ => titleCostAux t
    else titleCostAux t
  | _ :: t => titleCostAux t

/-- Lines 965-975: cost from the modal's `Cost:` pattern (stripped), else
from a parenthesised `(\d+(AP|F|S))` token in the control's label. -/
def extractCost (title modalText : String) : String :=
  match costSearchAux modalText.data with
  | some cap => String.mk (trimChars cap)
  | none =>
    match titleCostAux title.data with
    | some c => String.mk c
    | none => ""

/-- Lines 921-1051: handling of one non-description button.  Skip unless
visible and enabled with nonempty stripped text; click (logged); if an
overlay is found, classify via the button map with fallback `innate`,
append the title to the matching kind list, append the captured text, and
merge into the Consolidation Store. -/
def processOneButton (btmap : List (String × String)) (url heroName : String)
    (st : RevealState) (b : Button) : RevealState :=
  if b.visible && b.enabled then
    let title := strTrim b.text
    if title == "" then st
    else
      let logged := { st with clickLog := st.clickLog ++ [title] }
      match b.modal with
      | none => logged
      | some modalText =>
        let cost := extractCost title modalText
        let kind := (lookupKV btmap title).getD "innate"
        let d0 := logged.data
        let d1 :=
          if kind == "innate" then
            { d0 with innate_abilities := d0.innate_abilities ++ [title] }
          else if kind == "active" then
            { d0 with active_abilities := d0.active_abilities ++ [title] }
          else if kind == "combat_manoeuvre" then
            { d0 with combat_manoeuvres := d0.combat_manoeuvres ++ [title] }
          else d0
        let d2 := { d1 with accumulated_text := d1.accumulated_text
          ++ ["\n--- " ++ title ++ " ---\n" ++ modalText] }
        { logged with
          data := d2
          store := recordAbility logged.store title modalText kind cost
            heroName url }
  else st

/-- `_extract_hero_abilities`: build the heading map, split the buttons,
click the others in reverse order, then the description button last (its
content replaces the page body; `descriptionMain` is the main element's
text afterwards, `none` when the click or the query fails).  When reading
the page content fails at the top (`contentOk = false`), the outer
`except` returns the untouched initial data (lines 1077-1080). -/
def extractHeroAbilities (store : Store) (contentOk : Bool)
    (headings : List Heading) (buttons : List Button)
    (descriptionMain : Option String) (url heroName : String) :
    AbilitiesData × Store × List String :=
  if !contentOk then (emptyAbilities, store, [])
  else
    let btmap := buildButtonMap headings
    let descBtn := (splitButtons buttons).1
    let ordered := (splitButtons buttons).2.reverse
    let final := ordered.foldl (processOneButton btmap url heroName)
      { data := emptyAbilities, store := store, clickLog := [] }
    let data :=
      match descBtn with
      | some _ =>
        match descriptionMain with
        | some t =>
          { final.data with accumulated_text := final.data.accumulated_text
            ++ ["\n--- Description ---\n" ++ t] }
        | none => final.data
      | none => final.data
    (data, final.store, final.clickLog)

/-- The label a button contributes to the click log, if it is attempted. -/
def clickLogEntry (b : Button) : Option String :=
  if b.visible && b.enabled && strTrim b.text != "" then some (strTrim b.text)
  else none

/-- The click loop attempts exactly the visible, enabled, nonempty-labelled
buttons, in the order it receives them. -/
theorem processButtons_clickLog (btmap : List (String × String))
    (url heroName : String) :
    ∀ (bs : List Button) (st : RevealState),
      (bs.foldl (processOneButton btmap url heroName) st).clickLog
        = st.clickLog ++ bs.filterMap clickLogEntry := by
  intro bs
  induction bs with
  | nil => intro st; simp
  | cons b t ih =>
    intro st
    rw [List.foldl_cons, ih]
    by_cases hv : (b.visible && b.enabled) = true
    · by_cases ht : strTrim b.text = ""
      · simp [processOneButton, clickLogEntry, hv, ht]
      · cases hm : b.modal <;>
          simp [processOneButton, clickLogEntry, hv, ht, hm]
    · simp [processOneButton, clickLogEntry, hv]

/-- The click loop of `_extract_hero_abilities` logs exactly the eligible
non-description buttons, in reversed document order. -/
theorem extractHeroAbilities_clickLog (store : Store)
    (headings : List Heading) (buttons : List Button) (dm : Option String)
    (url heroName : String) :
    (extractHeroAbilities store true headings buttons dm url heroName).2.2
      = (splitButtons buttons).2.reverse.filterMap clickLogEntry := by
  unfold extractHeroAbilities
  rw [if_neg (by simp : ¬((!true) = true))]
  dsimp only
  rw [processButtons_clickLog]
  simp

/-- A button the click loop attempts: visible, enabled, not a description
control, with nonempty stripped label. -/
def eligibleOther (b : Button) : Prop :=
  b.visible = true ∧ b.enabled = true ∧
    strContains (strLower (strTrim b.text)) "description" = false ∧
    strTrim b.text ≠ ""

/-- **C6** The Interactive Revealer attempts non-description controls in
reverse document order: for controls in document order `[b1, b2, b3]`, it
clicks `b3`, then `b2`, then `b1`. -/
theorem reveal_reverse_order (store : Store) (headings : List Heading)
    (dm : Option String) (url heroName : String) (b1 b2 b3 : Button)
    (h1 : eligibleOther b1) (h2 : eligibleOther b2) (h3 : eligibleOther b3) :
    (extractHeroAbilities store true headings [b1, b2, b3] dm url heroName).2.2
      = [strTrim b3.text, strTrim b2.text, strTrim b1.text] := by
  obtain ⟨h1v, h1e, h1d, h1t⟩ := h1
  obtain ⟨h2v, h2e, h2d, h2t⟩ := h2
  obtain ⟨h3v, h3e, h3d, h3t⟩ := h3
  rw [extractHeroAbilities_clickLog]
  have hsplit : splitButtons [b1, b2, b3] = (none, [b1, b2, b3]) := by
    simp [splitButtons, h1v, h1e, h1d, h2v, h2e, h2d, h3v, h3e, h3d]
  rw [hsplit]
  simp [clickLogEntry, h1v, h1e, h1t, h2v, h2e, h2t, h3v, h3e, h3t]

/-- Witness for C6 on three concrete controls in document order A, B, C:
the attempt order is C, B, A. -/
theorem reveal_reverse_order_witness :
    (extractHeroAbilities [] true []
        [{ text := "A", visible := true, enabled := true, modal := none },
         { text := "B", visible := true, enabled := true, modal := none },
         { text := "C", visible := true, enabled := true, modal := none }]
        none "u" "Skye").2.2 = ["C", "B", "A"] := by
  have h := reveal_reverse_order [] [] none "u" "Skye"
    { text := "A", visible := true, enabled := true, modal := none }
    { text := "B", visible := true, enabled := true, modal := none }
    { text := "C", visible := true, enabled := true, modal := none }
    (by refine ⟨rfl, rfl, ?_, ?_⟩ <;> decide)
    (by refine ⟨rfl, rfl, ?_, ?_⟩ <;> decide)
    (by refine ⟨rfl, rfl, ?_, ?_⟩ <;> decide)
  rw [h]
  decide

/-- **C7** A revealed control whose label matches no heading-derived kind is
still recorded: its title is appended to the innate list, its captured
text is appended, and it is merged into the Consolidation Store with kind
`innate` — never dropped. -/
theorem unmapped_control_defaults_innate (btmap : List (String × String))
    (url heroName : String) (st : RevealState) (b : Button) (mt : String)
    (hv : b.visible = true) (he : b.enabled = true)
    (ht : strTrim b.text ≠ "") (hm : b.modal = some mt)
    (hunmapped : lookupKV btmap (strTrim b.text) = none) :
    (processOneButton btmap url heroName st b).data.innate_abilities
      = st.data.innate_abilities ++ [strTrim b.text] ∧
    (processOneButton btmap url heroName st b).data.accumulated_text
      = st.data.accumulated_text
        ++ ["\n--- " ++ strTrim b.text ++ " ---\n" ++ mt] ∧
    (processOneButton btmap url heroName st b).store
      = recordAbility st.store (strTrim b.text) mt "innate"
          (extractCost (strTrim b.text) mt) heroName url := by
  refine ⟨?_, ?_, ?_⟩ <;>
    simp [processOneButton, hv, he, hm, hunmapped, ht]

/-- Witness for C7: a control labelled `Stomp` under no kind heading is
recorded as an innate ability fragment. -/
theorem unmapped_control_defaults_innate_witness :
    AbilitiesData.innate_abilities (RevealState.data (processOneButton [] "u" "Skye"
        { data := emptyAbilities, store := [], clickLog := [] }
        { text := "Stomp", visible := true, enabled := true,
          modal := some "Stomp\nCost: 1AP\nCrush adjacent enemies." }))
      = ["Stomp"] := by
  have h := unmapped_control_defaults_innate [] "u" "Skye"
    { data := emptyAbilities, store := [], clickLog := [] }
    { text := "Stomp", visible := true, enabled := true,
      modal := some "Stomp\nCost: 1AP\nCrush adjacent enemies." }
    "Stomp\nCost: 1AP\nCrush adjacent enemies."
    rfl rfl (by decide) rfl (by decide)
  rw [h.1]
  decide

/-! ## Page records and the per-category Field Extractor strategies
(`_extract_common_fields` and the `_parse_*_page` functions) -/

/-- A Python dict value as stored in a page record. -/
inductive Val where
  | str : String → Val
  | int : Int → Val
  | strList : List String → Val
  | strMap : List (String × String) → Val
  | intMap : List (String × Int) → Val
  | weapons : List Weapon → Val
  | entities : List EntityRef → Val
deriving DecidableEq, Repr

/-- A page record / document: a Python dict. -/
abbrev PageDoc := List (String × Val)

/-- Join pieces with a separator: Python `sep.join(parts)`. -/
def joinWithSep (sep : List Char) : List (List Char) → List Char
  | [] => []
  | [x] => x
  | x :: xs => x ++ sep ++ joinWithSep sep xs

/-- Split a character list at a separator character. -/
def splitOnChar (ch : Char) (l : List Char) : List (List Char) :=
  l.foldr
    (fun c acc =>
      if c == ch then [] :: acc
      else
        match acc with
        | [] => [[c]]
        | h :: t => (c :: h) :: t)
    [[]]

/-- What `_extract_common_fields` observes: the first `h1`'s stripped text,
the first `main img` `src`, and `main.get_text(separator="\n", strip=True)`
after script/style removal (`none` when the element is missing). -/
structure CommonSoup where
  h1 : Option String
  imgSrc : Option String
  mainRaw : Option String
deriving DecidableEq, Repr

/-- Lines 103-105: strip every line, drop blanks, join with blank lines. -/
def normalizeMainText (raw : String) : String :=
  String.mk (joinWithSep ['\n', '\n']
    (((splitOnNl raw.data).map trimChars).filter (fun l => l ≠ [])))

/-- `_extract_common_fields` (lines 84-114). -/
def extractCommonFields (cs : CommonSoup) (url : String) : PageDoc :=
  let title := match cs.h1 with | some t => t | none => ""
  let imgUrl :=
    match cs.imgSrc with
    | some src =>
      if src != "" then
        (if strStartsWith src "http" then src else BASE_URL ++ src)
      else ""
    | none => ""
  let text :=
    match cs.mainRaw with
    | some raw => normalizeMainText raw
    | none => ""
  [("url", Val.str url), ("title", Val.str title),
   ("img_url", Val.str imgUrl), ("text", Val.str text)]

/-- What `_parse_god_page` observes: the `div.bg-secondary` badge texts and,
per `h3` heading, its text with the hero-card names under its next
sibling. -/
structure GodSoup where
  badges : List String
  h3Sections : List (String × List String)
deriving DecidableEq, Repr

def wordCount (s : String) : Nat := (pyTokens s.data).length

def hasDigit (s : String) : Bool := s.data.any Char.isDigit

/-- Lines 125-139: the badge filter with its stoplist, digit rejection,
in-list deduplication and hard cap of 5 (a `break`). -/
def divineAttrsGo : List String → List String → List String
  | acc, [] => acc
  | acc, b :: rest =>
    if b ≠ "" ∧ wordCount b ≤ 2 then
      if b ∉ acc ∧ b ∉ ["Description", "Close", "Free"] ∧ hasDigit b = false then
        let acc2 := acc ++ [b]
        if 5 ≤ acc2.length then acc2 else divineAttrsGo acc2 rest
      else divineAttrsGo acc rest
    else divineAttrsGo acc rest

def divineAttributes (badges : List String) : List String := divineAttrsGo [] badges

/-- Lines 155-173: collect nonempty, not-yet-seen hero names. -/
def collectNames (acc : List String) (names : List String) : List String :=
  names.foldl (fun a n => if n ≠ "" ∧ n ∉ a then a ++ [n] else a) acc

/-- Lines 147-173: champions and avatars from the `h3` sections (an `elif`,
so a heading matching `avatar` is never also counted as `champion`). -/
def godMemberLists (sections : List (String × List String)) :
    List String × List String :=
  sections.foldl
    (fun acc sec =>
      let ht := strLower sec.1
      if strContains ht "avatar" then (acc.1, collectNames acc.2 sec.2)
      else if strContains ht "champion" then (collectNames acc.1 sec.2, acc.2)
      else acc)
    ([], [])

/-- `_parse_god_page` (lines 116-178). -/
def parseGodPage (cs : CommonSoup) (gs : GodSoup) (url : String) : PageDoc :=
  extractCommonFields cs url
    ++ [("category", Val.str (if strContains url "/gods/" then "god" else "tribe")),
        ("divine_attributes", Val.strList (divineAttributes gs.badges)),
        ("champions", Val.strList (godMemberLists gs.h3Sections).1),
        ("avatars", Val.strList (godMemberLists gs.h3Sections).2)]

/-- What `_parse_hero_page` observes beyond the common fields.  The
difficulty sibling-search of lines 192-211 is represented by its resulting
string; `classBadges` are the `border-transparent` badge texts under the
`Classes` heading; `godLinks` the texts of `a[href*="/gods/"]` anchors. -/
structure HeroSoup where
  difficulty : String
  classBadges : List String
  attrTable : Option Table
  weaponsTable : Option Table
  healthGrid : Option (List HealthCell)
  godLinks : List String
deriving DecidableEq, Repr

/-- `_parse_hero_page` (lines 180-366): static fields, with the three
ability lists initialised empty (lines 361-364). -/
def parseHeroPage (cs : CommonSoup) (hs : HeroSoup) (url : String) : PageDoc :=
  extractCommonFields cs url
    ++ [("category", Val.str "hero"),
        ("difficulty", Val.str hs.difficulty),
        ("classes", Val.strList (hs.classBadges.filter
            (fun c => c != "" && c != "Classes"))),
        ("attributes", Val.strMap (attributesFromTable "-" hs.attrTable)),
        ("weapons", Val.weapons (weaponsFromTable hs.weaponsTable)),
        ("health", Val.intMap (healthFromGrid hs.healthGrid)),
        ("gods", Val.strList (hs.godLinks.filter (fun g => g != ""))),
        ("innate_abilities", Val.strList []),
        ("active_abilities", Val.strList []),
        ("combat_manoeuvres", Val.strList [])]

/-- What `_parse_monster_or_summon_page` observes beyond the common fields:
the `h1`'s next-sibling text and the div texts under the first `h2`
containing `Health` or `Bounty` (`none` when no such heading exists). -/
structure CreatureSoup where
  h1NextSibling : Option String
  attrTable : Option Table
  weaponsTable : Option Table
  statDivTexts : Option (List String)
deriving DecidableEq, Repr

/-- `re.search(key + r"\s*(\d+)", text)` for `Health:` / `Tier:` scans. -/
def searchKeyNatAux (key : List Char) : List Char → Option Nat
  | [] => none
  | l@(_ :: t) =>
    if isPrefixChars key l then
      let ds := ((l.drop key.length).dropWhile Char.isWhitespace).takeWhile
        Char.isDigit
      if !ds.isEmpty then some (natOfDigits ds) else searchKeyNatAux key t
    else searchKeyNatAux key t

def searchKeyNat (key text : String) : Option Nat :=
  searchKeyNatAux key.data text.data

/-- Line 496: `text.split("Bounty:")[1].strip().split()[0]`; `none` both
when `Bounty:` does not occur (Python would raise an uncaught IndexError
in that corner) and when no token follows. -/
def bountyToken (text : String) : Option String :=
  match dropThroughSub "Bounty:".data text.data with
  | none => none
  | some rest =>
    match pyTokens (trimChars (takeUntilSub "Bounty:".data rest)) with
    | [] => none
    | tok :: _ => some (String.mk tok)

/-- The creature health/bounty/tier triple (lines 477-507). -/
structure CreatureStats where
  health : Nat
  bounty : Val
  tier : Nat
deriving DecidableEq, Repr

/-- One div text updating the creature stats (lines 487-506). -/
def creatureStatStep (acc : CreatureStats) (text : String) : CreatureStats :=
  let a1 :=
    if strContains text "Health" && strContains text ":" then
      match searchKeyNat "Health:" text with
      | some n => { acc with health := n }
      | none => acc
    else acc
  let a2 :=
    if strContains text "Bounty" && strContains text ":" then
      match bountyToken text with
      | some tok =>
        match pyInt tok with
        | some v => { a1 with bounty := Val.int v }
        | none => { a1 with bounty := Val.str tok }
      | none => a1
    else a1
  if strContains text "Tier" && strContains text ":" then
    match searchKeyNat "Tier:" text with
    | some n => { a2 with tier := n }
    | none => a2
  else a2

def creatureStatsOf (texts : Option (List String)) : CreatureStats :=
  match texts with
  | none => { health := 0, bounty := Val.str "", tier := 0 }
  | some ts =>
    ts.foldl creatureStatStep { health := 0, bounty := Val.str "", tier := 0 }

/-- `_parse_monster_or_summon_page` (lines 368-520), ability lists
initialised empty (lines 516-518). -/
def parseMonsterOrSummonPage (cs : CommonSoup) (ms : CreatureSoup)
    (url : String) : PageDoc :=
  let creatureType :=
    match ms.h1NextSibling with
    | some t =>
      if t != "" && !(["Attributes", "Weapons", "Health", "Innate Abilities",
          "Combat Manoeuvres"].contains t) then t
      else ""
    | none => ""
  let stats := creatureStatsOf ms.statDivTexts
  extractCommonFields cs url
    ++ [("category", Val.str
          (if strContains url "/monsters/" then "monster" else "summon")),
        ("creature_type", Val.str creatureType),
        ("attributes", Val.strMap (attributesFromTable "0" ms.attrTable)),
        ("weapons", Val.weapons (weaponsFromTable ms.weaponsTable)),
        ("health", Val.intMap [("level_1", (stats.health : Int))]),
        ("bounty", stats.bounty),
        ("tier", Val.int (stats.tier : Int)),
        ("innate_abilities", Val.strList []),
        ("active_abilities", Val.strList []),
        ("combat_manoeuvres", Val.strList [])]

/-- `_parse_artefact_page` (lines 522-527). -/
def parseArtefactPage (cs : CommonSoup) (url : String) : PageDoc :=
  extractCommonFields cs url ++ [("category", Val.str "artefacts_page")]

/-! ## Leaf extraction (definitions, conditions, FAQs, errata, artifacts) -/

/-- `name.lower().replace(' ', '-')`, the anchor slug used in leaf URLs. -/
def anchorSlug (name : String) : String := strReplace (strLower name) " " "-"

/-- A definition card (lines 685-689): the text of its first
`h2/h3/h4/strong/b` element, if any, and its full stripped text. -/
structure DefCard where
  nameElem : Option String
  fullText : String
deriving DecidableEq, Repr

/-- One game-definition document (lines 691-704). -/
def definitionDoc (url name desc : String) : PageDoc :=
  [("_id", Val.str (sha256hex (url ++ "#" ++ name))),
   ("url", Val.str (url ++ "#" ++ anchorSlug name)),
   ("title", Val.str name),
   ("text", Val.str desc),
   ("category", Val.str "game_definition"),
   ("source_page", Val.str url)]

/-- `_parse_game_definition_page` (lines 680-709): the summary page record
plus the per-card documents it appends to `self._definition_documents`. -/
def parseGameDefinitionPage (cs : CommonSoup) (cards : List DefCard)
    (url : String) : PageDoc × List PageDoc :=
  (extractCommonFields cs url ++ [("category", Val.str "game_definitions_page")],
   cards.filterMap (fun card =>
     match card.nameElem with
     | some name => some (definitionDoc url name card.fullText)
     | none => none))

/-- A heading section (conditions/errata pages): the heading's stripped
text and the texts of its following siblings up to the next `h2`/`h3`. -/
structure SectionS where
  heading : String
  siblingTexts : List String
deriving DecidableEq, Repr

/-- One condition document (lines 728-739). -/
def conditionDoc (url name desc : String) : PageDoc :=
  [("_id", Val.str (sha256hex (url ++ "#" ++ name))),
   ("url", Val.str (url ++ "#" ++ anchorSlug name)),
   ("title", Val.str name),
   ("text", Val.str desc),
   ("category", Val.str "condition"),
   ("source_page", Val.str url)]

/-- `_parse_conditions_page` (lines 711-746). -/
def parseConditionsPage (cs : CommonSoup) (sections : List SectionS)
    (url : String) : PageDoc × List PageDoc :=
  (extractCommonFields cs url ++ [("category", Val.str "conditions_page")],
   sections.filterMap (fun sec =>
     if sec.heading ≠ "" ∧ sec.heading ∉ ["Conditions", "General Rules"] then
       some (conditionDoc url sec.heading
         (String.mk (joinWithSep [' '] (sec.siblingTexts.map String.data))))
     else none))

/-- A FAQ element (lines 753-758): its stripped text (the question) and the
stripped text of its next sibling, if present. -/
structure FaqElem where
  question : String
  nextSiblingText : Option String
deriving DecidableEq, Repr

/-- One FAQ document (lines 760-774): identity uses the element's ordinal
in the selected list. -/
def faqDoc (url : String) (i : Nat) (q a : String) : PageDoc :=
  [("_id", Val.str (sha256hex (url ++ "#faq-" ++ toString i))),
   ("url", Val.str (url ++ "#faq-" ++ toString i)),
   ("title", Val.str q),
   ("text", Val.str (q ++ "\n\n" ++ a)),
   ("category", Val.str "faq"),
   ("question", Val.str q),
   ("answer", Val.str a),
   ("source_page", Val.str url)]

/-- `_parse_faq_page` (lines 748-779): `enumerate` counts every selected
element, including those skipped for an empty question. -/
def parseFaqPage (cs : CommonSoup) (elems : List FaqElem) (url : String) :
    PageDoc × List PageDoc :=
  (extractCommonFields cs url ++ [("category", Val.str "faqs_page")],
   elems.enum.filterMap (fun p =>
     if p.2.question != "" then
       some (faqDoc url p.1 p.2.question (p.2.nextSiblingText.getD ""))
     else none))

/-- One erratum document (lines 799-812). -/
def errataDoc (url itemName correction : String) : PageDoc :=
  [("_id", Val.str (sha256hex (url ++ "#" ++ itemName))),
   ("url", Val.str (url ++ "#" ++ anchorSlug itemName)),
   ("title", Val.str ("Errata: " ++ itemName)),
   ("text", Val.str correction),
   ("category", Val.str "erratum"),
   ("item_name", Val.str itemName),
   ("correction", Val.str correction),
   ("source_page", Val.str url)]

/-- `_parse_errata_page` (lines 781-819). -/
def parseErrataPage (cs : CommonSoup) (sections : List SectionS)
    (url : String) : PageDoc × List PageDoc :=
  (extractCommonFields cs url ++ [("category", Val.str "errata_page")],
   sections.filterMap (fun sec =>
     if strStartsWith sec.heading "Errata:" then
       some (errataDoc url (strTrim (strReplace sec.heading "Errata:" ""))
         (String.mk (joinWithSep [' '] (sec.siblingTexts.map String.data))))
     else none))

/-- An artifact modal (lines 585-601): the text of its first `h1/h2/h3`
element, if any, and its full text. -/
structure ArtifactModal where
  titleElem : Option String
  text : String
deriving DecidableEq, Repr

/-- A line carrying the artifact metadata (lines 610-611 / 629). -/
def isMetaLine (line : String) : Bool :=
  strContains line "|" && strContains line "Type:"

/-- The pipe-separated metadata triple (type, cost, category). -/
structure ArtifactMeta where
  atype : String
  cost : String
  acat : String
deriving DecidableEq, Repr

/-- Lines 613-622: one pipe-separated part updating the metadata. -/
def artifactMetaStep (acc : ArtifactMeta) (part : String) : ArtifactMeta :=
  if strStartsWith part "Type:" then
    { acc with atype := strTrim (strReplace part "Type:" "") }
  else if strStartsWith part "Cost:" then
    { acc with cost := strTrim (strReplace part "Cost:" "") }
  else if strStartsWith part "Category:" then
    { acc with acat := strTrim (strReplace part "Category:" "") }
  else acc

/-- Lines 604-623: metadata from the first matching line of the modal. -/
def artifactMeta (modalText : String) : ArtifactMeta :=
  match ((splitOnNl modalText.data).map String.mk).find? isMetaLine with
  | some line =>
    ((splitOnChar '|' line.data).map (fun p => strTrim (String.mk p))).foldl
      artifactMetaStep { atype := "", cost := "", acat := "" }
  | none => { atype := "", cost := "", acat := "" }

/-- Lines 625-640: the description is every stripped line after the first
metadata line, skipping further metadata lines, blanks, `Close` and the
artifact's own name, joined with spaces. -/
def artifactDescription (modalText artifactName : String) : String :=
  let step := fun (acc : Bool × List String) (line : String) =>
    if isMetaLine line then (true, acc.2)
    else if acc.1 && strTrim line != "" && strTrim line != "Close"
        && strTrim line != artifactName then
      (acc.1, acc.2 ++ [strTrim line])
    else acc
  String.mk (joinWithSep [' ']
    (((((splitOnNl modalText.data).map String.mk).foldl step (false, [])).2).map
      String.data))

/-- One artifact document (lines 643-656); the fallback name uses the
button's 1-based ordinal. -/
def artifactDoc (url : String) (idx : Nat) (m : ArtifactModal) : PageDoc :=
  let artifactName :=
    match m.titleElem with
    | some t => t
    | none => "Artifact " ++ toString (idx + 1)
  let meta := artifactMeta m.text
  [("_id", Val.str (sha256hex (url ++ "#" ++ artifactName))),
   ("url", Val.str (url ++ "#" ++ anchorSlug artifactName)),
   ("title", Val.str artifactName),
   ("text", Val.str m.text),
   ("category", Val.str "artefact"),
   ("artifact_type", Val.str meta.atype),
   ("cost", Val.str meta.cost),
   ("artifact_category", Val.str meta.acat),
   ("description", Val.str (artifactDescription m.text artifactName))]

/-- `_extract_artifacts` (lines 529-678): each card button either opens a
modal (processed into a document) or does not (skipped); the ordinal
advances either way. -/
def extractArtifacts (url : String) (modals : List (Option ArtifactModal)) :
    List PageDoc :=
  modals.enum.filterMap (fun p =>
    match p.2 with
    | some m => some (artifactDoc url p.1 m)
    | none => none)

/-! ## Crawl Orchestrator: the request handler (lines 1082-1194) -/

/-- Everything the request handler can observe on one page visit: the URL
and the per-category BeautifulSoup/Playwright query results.  `contentOk`
is whether reading the rendered page content succeeds inside
`_extract_hero_abilities`. -/
structure PageVisit where
  url : String
  common : CommonSoup
  god : GodSoup
  hero : HeroSoup
  creature : CreatureSoup
  anchors : List String
  defCards : List DefCard
  condSections : List SectionS
  faqElems : List FaqElem
  errataSections : List SectionS
  artifactModals : List (Option ArtifactModal)
  abilityHeadings : List Heading
  buttons : List Button
  descriptionMain : Option String
  contentOk : Bool
deriving DecidableEq, Repr

/-- The leaf documents a parse appends to the client's collections. -/
structure LeafDocs where
  defs : List PageDoc
  conds : List PageDoc
  faqs : List PageDoc
  errs : List PageDoc
deriving DecidableEq, Repr

def noLeafs : LeafDocs := { defs := [], conds := [], faqs := [], errs := [] }

/-- `_parse_page_by_category` (lines 821-841), also carrying the leaf
documents the definition/condition/faq/errata parsers append as a side
effect. -/
def parsePageByCategory (v : PageVisit) (category : String) :
    PageDoc × LeafDocs :=
  if category == "gods" then (parseGodPage v.common v.god v.url, noLeafs)
  else if category == "heroes" then (parseHeroPage v.common v.hero v.url, noLeafs)
  else if category == "monsters" || category == "summons" then
    (parseMonsterOrSummonPage v.common v.creature v.url, noLeafs)
  else if category == "artefacts" then (parseArtefactPage v.common v.url, noLeafs)
  else if category == "gamedefinitions" then
    let r := parseGameDefinitionPage v.common v.defCards v.url
    (r.1, { noLeafs with defs := r.2 })
  else if category == "conditions" then
    let r := parseConditionsPage v.common v.condSections v.url
    (r.1, { noLeafs with conds := r.2 })
  else if category == "faqs" then
    let r := parseFaqPage v.common v.faqElems v.url
    (r.1, { noLeafs with faqs := r.2 })
  else if category == "errata" then
    let r := parseErrataPage v.common v.errataSections v.url
    (r.1, { noLeafs with errs := r.2 })
  else (extractCommonFields v.common v.url, noLeafs)

/-- The client's per-run mutable state (`__init__` lines 31-40). -/
structure ClientState where
  page_count : Nat
  pages_data : List PageDoc
  ability_documents : Store
  artifact_documents : List PageDoc
  definition_documents : List PageDoc
  condition_documents : List PageDoc
  faq_documents : List PageDoc
  errata_documents : List PageDoc
deriving DecidableEq, Repr

/-- The state at the start of a run (`crawl_pages` lines 1202-1209). -/
def initialClientState : ClientState :=
  { page_count := 0, pages_data := [], ability_documents := [],
    artifact_documents := [], definition_documents := [],
    condition_documents := [], faq_documents := [], errata_documents := [] }

def addLeafs (st : ClientState) (l : LeafDocs) : ClientState :=
  { st with
    definition_documents := st.definition_documents ++ l.defs
    condition_documents := st.condition_documents ++ l.conds
    faq_documents := st.faq_documents ++ l.faqs
    errata_documents := st.errata_documents ++ l.errs }

/-- `d[k]` / `d.get(k, dflt)` for a string-valued field. -/
def getStrD (d : PageDoc) (k dflt : String) : String :=
  match lookupKV d k with
  | some (Val.str s) => s
  | _ => dflt

/-- `d.get(k, dflt)` keeping the stored value shape. -/
def getValD (d : PageDoc) (k : String) (dflt : Val) : Val :=
  match lookupKV d k with
  | some v => v
  | none => dflt

/-- Lines 1172-1187: overwrite the three ability lists with the revealer's
result and, when any text was captured, extend the page text. -/
def applyAbilities (pd : PageDoc) (ad : AbilitiesData) : PageDoc :=
  let pd1 := insertKV pd "innate_abilities" (Val.strList ad.innate_abilities)
  let pd2 := insertKV pd1 "active_abilities" (Val.strList ad.active_abilities)
  let pd3 := insertKV pd2 "combat_manoeuvres"
    (Val.strList ad.combat_manoeuvres)
  if ad.accumulated_text ≠ [] then
    insertKV pd3 "text" (Val.str (getStrD pd3 "text" "" ++ "\n\n"
      ++ String.mk (joinWithSep ['\n'] (ad.accumulated_text.map String.data))))
  else pd3

/-- `request_handler` (lines 1085-1194) acting on the client state.  The
returned list holds the detail URLs enqueued via `context.add_requests`. -/
def requestHandler (st : ClientState) (v : PageVisit) :
    ClientState × List String :=
  let category := getCategoryFromUrl v.url
  if isListPage v.url then
    if category == "artefacts" then
      let artifacts := extractArtifacts v.url v.artifactModals
      let page_data := (parsePageByCategory v category).1
      ({ st with
          artifact_documents := st.artifact_documents ++ artifacts
          pages_data := st.pages_data ++ [page_data]
          page_count := st.page_count + 1 }, [])
    else
      let links := extractListPageLinks v.anchors v.url
      if ["gamedefinitions", "conditions", "faqs", "errata"].contains category then
        let r := parsePageByCategory v category
        ({ addLeafs st r.2 with
            pages_data := st.pages_data ++ [r.1]
            page_count := st.page_count + 1 }, links)
      else (st, links)
  else
    let r :=
      if category == "heroes" then (parseHeroPage v.common v.hero v.url, noLeafs)
      else if category == "monsters" || category == "summons" then
        (parseMonsterOrSummonPage v.common v.creature v.url, noLeafs)
      else parsePageByCategory v category
    if ["heroes", "monsters", "summons"].contains category then
      let entityName := getStrD r.1 "title" "Unknown"
      let ab := extractHeroAbilities st.ability_documents v.contentOk
        v.abilityHeadings v.buttons v.descriptionMain v.url entityName
      ({ addLeafs st r.2 with
          ability_documents := ab.2.1
          pages_data := st.pages_data ++ [applyAbilities r.1 ab.1]
          page_count := st.page_count + 1 }, [])
    else
      ({ addLeafs st r.2 with
          pages_data := st.pages_data ++ [r.1]
          page_count := st.page_count + 1 }, [])

/-! ## Document Assembler (`datasource.py`, `get_docs` lines 64-255) -/

/-- `_generate_doc_id` (lines 64-66): the page document id is the SHA-256
hex digest of the page URL. -/
def generateDocId (url : String) : String := sha256hex url

/-- Lines 114-166: the envelope and category-specific fields of one page
document; `ts` is the `datetime.utcnow().isoformat()` timestamp. -/
def assemblePageDoc (ts : String) (page : PageDoc) : PageDoc :=
  let url := getStrD page "url" ""
  let base :=
    [("_id", Val.str (generateDocId url)),
     ("_timestamp", Val.str ts),
     ("url", Val.str url),
     ("title", Val.str (getStrD page "title" "")),
     ("img_url", Val.str (getStrD page "img_url" "")),
     ("text", Val.str (getStrD page "text" "")),
     ("category", Val.str (getStrD page "category" "unknown"))]
  let cat := getStrD page "category" ""
  let extra :=
    if cat == "god" || cat == "tribe" then
      [("divine_attributes", getValD page "divine_attributes" (Val.strList [])),
       ("champions", getValD page "champions" (Val.strList [])),
       ("avatars", getValD page "avatars" (Val.strList []))]
    else if cat == "hero" then
      [("difficulty", getValD page "difficulty" (Val.str "")),
       ("classes", getValD page "classes" (Val.strList [])),
       ("attributes", getValD page "attributes" (Val.strMap [])),
       ("weapons", getValD page "weapons" (Val.weapons [])),
       ("health", getValD page "health" (Val.intMap [])),
       ("gods", getValD page "gods" (Val.strList [])),
       ("innate_abilities", getValD page "innate_abilities" (Val.strList [])),
       ("active_abilities", getValD page "active_abilities" (Val.strList [])),
       ("combat_manoeuvres", getValD page "combat_manoeuvres" (Val.strList [])),
       ("hero_name", Val.str (getStrD page "title" ""))]
    else if cat == "monster" || cat == "summon" then
      [("creature_type", getValD page "creature_type" (Val.str "")),
       ("attributes", getValD page "attributes" (Val.strMap [])),
       ("weapons", getValD page "weapons" (Val.weapons [])),
       ("health", getValD page "health" (Val.intMap [])),
       ("bounty", getValD page "bounty" (Val.str "")),
       ("tier", getValD page "tier" (Val.int 0)),
       ("innate_abilities", getValD page "innate_abilities" (Val.strList [])),
       ("active_abilities", getValD page "active_abilities" (Val.strList [])),
       ("combat_manoeuvres", getValD page "combat_manoeuvres" (Val.strList []))]
    else []
  base ++ extra

/-- Lines 170-183: one consolidated ability document as emitted. -/
def assembleAbilityDoc (ts : String) (a : AbilityDoc) : PageDoc :=
  [("_id", Val.str a.docId),
   ("_timestamp", Val.str ts),
   ("url", Val.str a.url),
   ("title", Val.str a.title),
   ("text", Val.str a.text),
   ("category", Val.str a.category),
   ("cost", Val.str a.cost),
   ("entities", Val.entities a.entities)]

/-- A visit whose soup queries all come back empty: enough to exercise the
handler's branching. -/
def emptyCommonSoup : CommonSoup := { h1 := none, imgSrc := none, mainRaw := none }

def trivialVisit (url : String) : PageVisit :=
  { url := url,
    common := emptyCommonSoup,
    god := { badges := [], h3Sections := [] },
    hero := { difficulty := "", classBadges := [], attrTable := none,
              weaponsTable := none, healthGrid := none, godLinks := [] },
    creature := { h1NextSibling := none, attrTable := none,
                  weaponsTable := none, statDivTexts := none },
    anchors := [], defCards := [], condSections := [], faqElems := [],
    errataSections := [], artifactModals := [], abilityHeadings := [],
    buttons := [], descriptionMain := none, contentOk := true }

/-- **C2 counterexample** The `heroes` listing page completes its handler
run (links extracted and enqueued) with the page-visit counter not
incremented at all: only the artefacts listing, the four leaf-category
listings, and detail pages increment it. -/
theorem pageCounter_heroes_listing_counterexample :
    isListPage (BASE_URL ++ "/heroes") = true ∧
    (requestHandler initialClientState
        (trivialVisit (BASE_URL ++ "/heroes"))).1.page_count
      = initialClientState.page_count ∧
    initialClientState.page_count ≠ initialClientState.page_count + 1 := by
  refine ⟨by decide, by decide, by decide⟩

/-- **C2 (amended)** The page-visit counter increments exactly once on
every completed detail page and on completed listing pages of the
`artefacts`, `gamedefinitions`, `conditions`, `faqs` and `errata`
categories; listing pages of the remaining categories (gods, heroes,
monsters, summons) complete without incrementing it. -/
theorem pageCount_increment_policy (st : ClientState) (v : PageVisit) :
    (requestHandler st v).1.page_count
      = st.page_count
        + (if isListPage v.url then
            (if (getCategoryFromUrl v.url == "artefacts"
                || ["gamedefinitions", "conditions", "faqs", "errata"].contains
                  (getCategoryFromUrl v.url)) then 1 else 0)
          else 1) := by
  unfold requestHandler
  dsimp only
  split_ifs with h1 h2 h3 <;> simp_all [addLeafs]

/-- **C3 counterexample** The consolidated ability document created for the
title `Fly` revealed on a hero page carries `_id = sha256("Fly")` — the
hash of the title alone — which differs both from the hash of URL+title
and from the hash of the ability record's own (anchor) URL. -/
theorem ability_id_counterexample :
    ((recordAbility [] "Fly" "Fly: ignore terrain." "active" "" "Skye"
        (BASE_URL ++ "/heroes/skye")).map
      (fun p => (p.2 : AbilityDoc).docId)) = [sha256hex "Fly"] ∧
    sha256hex "Fly"
      ≠ sha256hex (BASE_URL ++ "/heroes/skye" ++ "#" ++ "Fly") ∧
    sha256hex "Fly" ≠ sha256hex (abilityAnchorUrl "Fly") := by
  refine ⟨rfl, by decide, by decide⟩

/-- **C3 (amended)** Every emitted document's identifier is a deterministic
content hash: pages hash their URL; definitions, conditions, errata and
artifacts hash URL + `#` + title; FAQs hash URL + `#faq-` + ordinal;
ability documents hash the ability title alone (not URL+title).  Distinct
URLs hash to distinct identifiers on the concrete inputs checked. -/
theorem doc_id_scheme (ts url name desc t : String) (i : Nat)
    (page : PageDoc) (a : AbilityDoc) :
    lookupKV (assemblePageDoc ts page) "_id"
      = some (Val.str (generateDocId (getStrD page "url" ""))) ∧
    generateDocId (getStrD page "url" "")
      = sha256hex (getStrD page "url" "") ∧
    lookupKV (definitionDoc url name desc) "_id"
      = some (Val.str (sha256hex (url ++ "#" ++ name))) ∧
    lookupKV (conditionDoc url name desc) "_id"
      = some (Val.str (sha256hex (url ++ "#" ++ name))) ∧
    lookupKV (faqDoc url i name desc) "_id"
      = some (Val.str (sha256hex (url ++ "#faq-" ++ toString i))) ∧
    lookupKV (errataDoc url name desc) "_id"
      = some (Val.str (sha256hex (url ++ "#" ++ name))) ∧
    lookupKV (artifactDoc url i { titleElem := some name, text := t }) "_id"
      = some (Val.str (sha256hex (url ++ "#" ++ name))) ∧
    lookupKV (assembleAbilityDoc ts a) "_id" = some (Val.str a.docId) ∧
    ((recordAbility [] name desc t "" "Skye" url).map
      (fun p => (p.2 : AbilityDoc).docId)) = [sha256hex name] ∧
    generateDocId (BASE_URL ++ "/heroes/skye")
      ≠ generateDocId (BASE_URL ++ "/heroes/akaan") := by
  refine ⟨rfl, rfl, rfl, rfl, rfl, rfl, rfl, rfl, rfl, by decide⟩

/-- The revealer's lists overwrite the page dict's three ability keys. -/
theorem lookup_applyAbilities (pd : PageDoc) (ad : AbilitiesData) :
    lookupKV (applyAbilities pd ad) "innate_abilities"
      = some (Val.strList ad.innate_abilities) ∧
    lookupKV (applyAbilities pd ad) "active_abilities"
      = some (Val.strList ad.active_abilities) ∧
    lookupKV (applyAbilities pd ad) "combat_manoeuvres"
      = some (Val.strList ad.combat_manoeuvres) := by
  unfold applyAbilities
  dsimp only
  by_cases h : ad.accumulated_text = []
  · rw [if_neg (by simp [h])]
    refine ⟨?_, ?_, ?_⟩
    · rw [lookupKV_insertKV_ne _ _ _ _ (by decide),
        lookupKV_insertKV_ne _ _ _ _ (by decide)]
      exact lookupKV_insertKV_self _ _ _
    · rw [lookupKV_insertKV_ne _ _ _ _ (by decide)]
      exact lookupKV_insertKV_self _ _ _
    · exact lookupKV_insertKV_self _ _ _
  · rw [if_pos h]
    refine ⟨?_, ?_, ?_⟩
    · rw [lookupKV_insertKV_ne _ _ _ _ (by decide),
        lookupKV_insertKV_ne _ _ _ _ (by decide),
        lookupKV_insertKV_ne _ _ _ _ (by decide)]
      exact lookupKV_insertKV_self _ _ _
    · rw [lookupKV_insertKV_ne _ _ _ _ (by decide),
        lookupKV_insertKV_ne _ _ _ _ (by decide)]
      exact lookupKV_insertKV_self _ _ _
    · rw [lookupKV_insertKV_ne _ _ _ _ (by decide)]
      exact lookupKV_insertKV_self _ _ _

/-- **C10** Hero, monster and summon page records always carry the keys
`innate_abilities`, `active_abilities` and `combat_manoeuvres` bound to
lists: the static parsers initialise them to empty lists; a total reveal
failure returns the untouched empty lists; the handler stores the page
with the revealer's lists bound to those keys; and the emitted document
copies each such list through unchanged. -/
theorem ability_keys_always_lists (cs : CommonSoup) (hs : HeroSoup)
    (ms : CreatureSoup) (url ts : String) (st : ClientState) (v : PageVisit)
    (store : Store) (headings : List Heading) (buttons : List Button)
    (dm : Option String) (heroName : String) (page : PageDoc) :
    (lookupKV (parseHeroPage cs hs url) "innate_abilities"
        = some (Val.strList []) ∧
      lookupKV (parseHeroPage cs hs url) "active_abilities"
        = some (Val.strList []) ∧
      lookupKV (parseHeroPage cs hs url) "combat_manoeuvres"
        = some (Val.strList [])) ∧
    (lookupKV (parseMonsterOrSummonPage cs ms url) "innate_abilities"
        = some (Val.strList []) ∧
      lookupKV (parseMonsterOrSummonPage cs ms url) "active_abilities"
        = some (Val.strList []) ∧
      lookupKV (parseMonsterOrSummonPage cs ms url) "combat_manoeuvres"
        = some (Val.strList [])) ∧
    extractHeroAbilities store false headings buttons dm url heroName
      = (emptyAbilities, store, []) ∧
    (["heroes", "monsters", "summons"].contains (getCategoryFromUrl v.url)
        = true →
      isListPage v.url = false →
      ∃ (pd : PageDoc) (l1 l2 l3 : List String),
        (requestHandler st v).1.pages_data = st.pages_data ++ [pd] ∧
        lookupKV pd "innate_abilities" = some (Val.strList l1) ∧
        lookupKV pd "active_abilities" = some (Val.strList l2) ∧
        lookupKV pd "combat_manoeuvres" = some (Val.strList l3)) ∧
    (∀ (k : String) (l : List String),
      (getStrD page "category" "" = "hero"
        ∨ getStrD page "category" "" = "monster"
        ∨ getStrD page "category" "" = "summon") →
      k ∈ ["innate_abilities", "active_abilities", "combat_manoeuvres"] →
      lookupKV page k = some (Val.strList l) →
      lookupKV (assemblePageDoc ts page) k = some (Val.strList l)) := by
  refine ⟨⟨rfl, rfl, rfl⟩, ⟨rfl, rfl, rfl⟩, rfl, ?_, ?_⟩
  · intro hc hl
    unfold requestHandler
    dsimp only
    rw [hl]
    rw [if_neg (by decide : ¬(false = true))]
    rw [if_pos hc]
    refine ⟨_, _, _, _, rfl, (lookup_applyAbilities _ _).1,
      (lookup_applyAbilities _ _).2.1, (lookup_applyAbilities _ _).2.2⟩
  · intro k l hcat hk hkl
    simp only [List.mem_cons, List.mem_singleton, List.not_mem_nil, or_false] at hk
    rcases hcat with hcat | hcat | hcat <;> rcases hk with hk | hk | hk <;>
      subst hk <;>
      simp [assemblePageDoc, getValD, hcat, hkl, lookupKV]

/-- Witness for C10: handling a concrete hero detail page stores a record
whose three ability keys are bound to lists. -/
theorem ability_keys_always_lists_witness :
    ∃ (pd : PageDoc) (l1 l2 l3 : List String),
      (requestHandler initialClientState
          (trivialVisit (BASE_URL ++ "/heroes/skye"))).1.pages_data
        = initialClientState.pages_data ++ [pd] ∧
      lookupKV pd "innate_abilities" = some (Val.strList l1) ∧
      lookupKV pd "active_abilities" = some (Val.strList l2) ∧
      lookupKV pd "combat_manoeuvres" = some (Val.strList l3) :=
  (ability_keys_always_lists emptyCommonSoup
      (trivialVisit "").hero (trivialVisit "").creature "" ""
      initialClientState (trivialVisit (BASE_URL ++ "/heroes/skye"))
      [] [] [] none "" []).2.2.2.1 (by decide) (by decide)
